import Mathlib

/-!
Shallow embedding of the resilience core of the go-down repository:
the sliding-window circuit breaker and the bulkhead of
`services/order-service/internal/client` (`circuit_break.go`, `bulkhead.go`)
together with their composition in `payment_client_stage.go`
(`PaymentClient.ProcessPayment`, resilient build).

Modelling conventions:
* `time.Time` values and `time.Duration` values are integers (nanoseconds);
  `ts.After(u)` is `u < ts`, `time.Since(t) > d` at instant `now` is
  `d < now - t`.
* Go's `error` interface is the inductive `GoErr`; a nil error is `none`.
* The mutex-protected mutations become state-passing functions; each
  critical section (`canAttempt`, `recordFailure`, `recordSuccess`) is one
  atomic step and takes the instant `now` at which it runs.
* The Prometheus counter `circuit_breaker_failures_total` is the field
  `failuresTotal`; `bulkhead_rejected_total` is the field `rejected`.  The
  gauges (`circuit_breaker_state`, `bulkhead_active`) mirror the `state`
  field resp. the `inFlight` field and are not duplicated.
* A callable given to a guard is modelled by the outcome it would produce
  if invoked; the `invoked` flag of a run records whether the guard
  actually ran it.
-/

namespace GoDown

/-- Go's `error` values that occur in the client package: the two
distinguished sentinel errors, a context cancellation error, and any other
error (e.g. one produced by `makePaymentCall`). -/
inductive GoErr where
  | errCircuitOpen : GoErr
  | errBulkheadFull : GoErr
  | ctxCanceled : GoErr
  | other : String → GoErr
deriving DecidableEq, Repr

/-- One nanosecond is the unit; `time.Second` in the source. -/
def second : Int := 1000000000

/-- `CircuitState` of `circuit_break.go` (`StateClosed`, `StateOpen`,
`StateHalfOpen`). -/
inductive CircuitState where
  | StateClosed : CircuitState
  | StateOpen : CircuitState
  | StateHalfOpen : CircuitState
deriving DecidableEq, Repr

/-- The sliding-window `CircuitBreaker` struct of `circuit_break.go`.  The
type parameter `T` of the Go generic only appears in `Execute`, so the
state itself is not parametrised here. -/
structure CircuitBreaker where
  state : CircuitState
  failureTimestamps : List Int
  failureThreshold : Nat
  failureWindow : Int
  successThreshold : Nat
  timeout : Int
  lastFailureTime : Int
  /-- the `circuit_breaker_failures_total` Prometheus counter -/
  failuresTotal : Nat
  serviceName : String
deriving DecidableEq, Repr

/-- `NewCircuitBreaker(serviceName, failureThreshold, timeout)`: starts
Closed with an empty failure history; the failure window is hard-coded to
ten seconds; `successThreshold` is one.  `lastFailureTime` starts at the
zero time. -/
def NewCircuitBreaker (serviceName : String) (failureThreshold : Nat)
    (timeout : Int) : CircuitBreaker :=
  { state := .StateClosed
    failureTimestamps := []
    failureThreshold := failureThreshold
    failureWindow := 10 * second
    successThreshold := 1
    timeout := timeout
    lastFailureTime := 0
    failuresTotal := 0
    serviceName := serviceName }

/-- `setState`: updates the state field (the state gauge mirrors it). -/
def setState (cb : CircuitBreaker) (s : CircuitState) : CircuitBreaker :=
  { cb with state := s }

/-- `canAttempt` at instant `now`: Closed and HalfOpen admit; Open admits
(transitioning to HalfOpen) only when more than `timeout` has elapsed
since `lastFailureTime`.  Returns the admission decision and the breaker
after the critical section. -/
def canAttempt (cb : CircuitBreaker) (now : Int) : Bool × CircuitBreaker :=
  match cb.state with
  | .StateClosed => (true, cb)
  | .StateOpen =>
      if cb.timeout < now - cb.lastFailureTime then
        (true, setState cb .StateHalfOpen)
      else
        (false, cb)
  | .StateHalfOpen => (true, cb)

/-- `countFailuresInWindow`: the number of recorded failure timestamps
strictly after `now - failureWindow`. -/
def countFailuresInWindow (cb : CircuitBreaker) (now : Int) : Nat :=
  (cb.failureTimestamps.filter (fun ts => now - cb.failureWindow < ts)).length

/-- `cleanupOldFailures`: keeps only the failure timestamps strictly after
`now - failureWindow`. -/
def cleanupOldFailures (cb : CircuitBreaker) (now : Int) : CircuitBreaker :=
  { cb with failureTimestamps :=
      cb.failureTimestamps.filter (fun ts => now - cb.failureWindow < ts) }

/-- The state switch at the end of `recordFailure`, applied to the breaker
after the new failure was appended and stale failures were cleaned up:
Closed opens when the in-window count reaches the threshold, HalfOpen
always reopens, Open stays Open (no case in the Go switch). -/
def failureSwitch (cb : CircuitBreaker) (now : Int) : CircuitBreaker :=
  match cb.state with
  | .StateClosed =>
      if cb.failureThreshold ≤ countFailuresInWindow cb now then
        setState cb .StateOpen
      else
        cb
  | .StateHalfOpen => setState cb .StateOpen
  | .StateOpen => cb

/-- `recordFailure` at instant `now`: appends the timestamp, sets
`lastFailureTime`, bumps the failure counter, purges stale timestamps, and
runs the state switch on the in-window count. -/
def recordFailure (cb : CircuitBreaker) (now : Int) : CircuitBreaker :=
  failureSwitch
    (cleanupOldFailures
      { cb with failureTimestamps := cb.failureTimestamps ++ [now]
                lastFailureTime := now
                failuresTotal := cb.failuresTotal + 1 } now) now

/-- `recordSuccess`: HalfOpen closes and clears the failure history;
Closed does nothing (the sliding window ages failures out); Open has no
case in the Go switch. -/
def recordSuccess (cb : CircuitBreaker) : CircuitBreaker :=
  match cb.state with
  | .StateHalfOpen => setState { cb with failureTimestamps := [] } .StateClosed
  | .StateClosed => cb
  | .StateOpen => cb

/-- `GetState`: read-only observation of the state. -/
def GetState (cb : CircuitBreaker) : CircuitState :=
  cb.state

/-- The result of one `CircuitBreaker.Execute` run: the returned value and
error, whether the callable was actually invoked, and the breaker
afterwards. -/
structure ExecResult (T : Type) where
  value : T
  err : Option GoErr
  invoked : Bool
  cb : CircuitBreaker
deriving DecidableEq, Repr

/-- `CircuitBreaker.Execute` of `circuit_break.go`.  `tAdmit` is the
instant of the admission check, `tRecord` the instant at which the outcome
is recorded; `fn` is the outcome the callable produces if invoked.  A
rejected call returns the zero value of `T` and `ErrCircuitOpen` and bumps
the failure counter; an admitted call runs the callable once and records
its outcome, returning the zero value alongside a non-nil error. -/
def CircuitBreaker.Execute {T : Type} [Inhabited T] (cb : CircuitBreaker)
    (tAdmit tRecord : Int) (fn : T × Option GoErr) : ExecResult T :=
  match canAttempt cb tAdmit with
  | (false, cb1) =>
      ⟨default, some .errCircuitOpen, false,
        { cb1 with failuresTotal := cb1.failuresTotal + 1 }⟩
  | (true, cb1) =>
      match fn.2 with
      | some e => ⟨default, some e, true, recordFailure cb1 tRecord⟩
      | none => ⟨fn.1, none, true, recordSuccess cb1⟩

/-- The `Bulkhead` struct of `bulkhead.go`: `inFlight` is the number of
tokens in the semaphore channel (`len(b.semaphore)`), `capacity` its
buffer size. -/
structure Bulkhead where
  capacity : Nat
  inFlight : Nat
  /-- the `bulkhead_rejected_total` Prometheus counter -/
  rejected : Nat
  poolName : String
deriving DecidableEq, Repr

/-- `NewBulkhead(poolName, maxConcurrent)`. -/
def NewBulkhead (poolName : String) (maxConcurrent : Nat) : Bulkhead :=
  { capacity := maxConcurrent
    inFlight := 0
    rejected := 0
    poolName := poolName }

/-- The state right after a successful semaphore send
(`b.semaphore <- struct{}{}`): one more call in flight. -/
def Bulkhead.acquired (b : Bulkhead) : Bulkhead :=
  { b with inFlight := b.inFlight + 1 }

/-- The state after the deferred semaphore receive (`<-b.semaphore`): one
fewer call in flight. -/
def Bulkhead.released (b : Bulkhead) : Bulkhead :=
  { b with inFlight := b.inFlight - 1 }

/-- How an invoked callable terminates: a normal return carrying a Go
error value (possibly nil), or an abnormal termination that unwinds
through the guard. -/
inductive BhOutcome where
  | ret : Option GoErr → BhOutcome
  | panicked : BhOutcome
deriving DecidableEq, Repr

/-- The result of one bulkhead run: how the guarded call exits, whether
the callable was actually invoked, and the bulkhead afterwards.  On an
abnormal exit the deferred release has already run when the unwinding
leaves the guard. -/
structure BhExec where
  exit : BhOutcome
  invoked : Bool
  final : Bulkhead
deriving DecidableEq, Repr

/-- `Bulkhead.TryExecute`: non-blocking admit-or-reject.  If a slot is
free the callable runs while the slot is held and the deferred release
runs on every exit path (normal or abnormal); otherwise the rejection
counter is bumped and `ErrBulkheadFull` is returned without invoking the
callable. -/
def Bulkhead.TryExecute (b : Bulkhead) (out : BhOutcome) : BhExec :=
  if b.inFlight < b.capacity then
    ⟨out, true, b.acquired.released⟩
  else
    ⟨.ret (some .errBulkheadFull), false, { b with rejected := b.rejected + 1 }⟩

/-- `Bulkhead.Execute`: the three-way `select`.  `ctxDone` says whether
`ctx.Done()` is already closed at the admission instant.  When both the
semaphore send and the context case are ready, Go's `select` picks one of
the ready cases pseudo-randomly; `pickCtx` models that choice.  The
`default` case (reject with `ErrBulkheadFull`) fires only when neither is
ready. -/
def Bulkhead.Execute (b : Bulkhead) (ctxDone pickCtx : Bool)
    (out : BhOutcome) : BhExec :=
  if b.inFlight < b.capacity then
    if ctxDone && pickCtx then
      ⟨.ret (some .ctxCanceled), false, b⟩
    else
      ⟨out, true, b.acquired.released⟩
  else if ctxDone then
    ⟨.ret (some .ctxCanceled), false, b⟩
  else
    ⟨.ret (some .errBulkheadFull), false, { b with rejected := b.rejected + 1 }⟩

/-- `GetActiveCount`: `len(b.semaphore)`. -/
def GetActiveCount (b : Bulkhead) : Nat :=
  b.inFlight

/-- Events of an interleaved execution against one bulkhead instance: an
admission attempt arriving (which admits or rejects according to the
semaphore), and an admitted callable finishing (running the deferred
release).  An admitted call holds its slot from its `arrive` to its
`finish`, so the number of callables executing at any point of a trace is
the `inFlight` count there. -/
inductive BhEvent where
  | arrive : BhEvent
  | finish : BhEvent
deriving DecidableEq, Repr

/-- One step of the interleaved semantics.  A `finish` event can only stem
from an admitted call, so it only releases when a call is in flight. -/
def bhStep (b : Bulkhead) : BhEvent → Bulkhead
  | .arrive =>
      if b.inFlight < b.capacity then
        b.acquired
      else
        { b with rejected := b.rejected + 1 }
  | .finish =>
      if 0 < b.inFlight then b.released else b

/-- The resilient `PaymentClient` of `payment_client_stage.go` (build tag
`!stage`): a circuit breaker over `*models.PaymentResponse` and a
bulkhead.  The HTTP client and base URL live inside the external callable
`makePaymentCall` and are not part of the guard state. -/
structure PaymentClient where
  circuitBreaker : CircuitBreaker
  bulkhead : Bulkhead
deriving DecidableEq, Repr

/-- `PaymentClient.ProcessPayment`.  `R` stands for
`models.PaymentResponse`; a `*models.PaymentResponse` is `Option R` with
nil as `none`.  `call` is the outcome `makePaymentCall` would produce if
invoked.  The closure handed to the breaker runs the call under
`bulkhead.TryExecute`; a non-nil bulkhead error (the callable's own error,
or `ErrBulkheadFull` on rejection) is returned to the breaker as
`(nil, err)`, otherwise the call's result is returned.  The bulkhead is
only touched when the breaker invokes the closure. -/
def PaymentClient.ProcessPayment (c : PaymentClient) (R : Type)
    (tAdmit tRecord : Int) (call : Option R × Option GoErr) :
    ExecResult (Option R) × Bulkhead :=
  let bhRun := c.bulkhead.TryExecute (.ret call.2)
  let closureOut : Option R × Option GoErr :=
    match bhRun.exit with
    | .ret (some e) => (none, some e)
    | .ret none => (call.1, none)
    | .panicked => (none, none)  -- unreachable: the payment callable returns normally
  let r := CircuitBreaker.Execute c.circuitBreaker tAdmit tRecord closureOut
  (r, if r.invoked then bhRun.final else c.bulkhead)

/-! Concrete guard states used by the witnesses and counterexamples.
Times are in abstract units here (the claims' properties do not depend on
the nanosecond scale); threshold five, window ten, open timeout thirty
mirror the configuration `NewCircuitBreaker("payment", 5, 30*time.Second)`
with its hard-coded ten-second window. -/

/-- A closed breaker with one recent failure recorded. -/
def cbClosedW : CircuitBreaker :=
  { state := .StateClosed
    failureTimestamps := [0]
    failureThreshold := 5
    failureWindow := 10
    successThreshold := 1
    timeout := 30
    lastFailureTime := 0
    failuresTotal := 1
    serviceName := "payment" }

/-- An open breaker that tripped at time 0. -/
def cbOpenW : CircuitBreaker :=
  { state := .StateOpen
    failureTimestamps := [0, 0, 0, 0, 0]
    failureThreshold := 5
    failureWindow := 10
    successThreshold := 1
    timeout := 30
    lastFailureTime := 0
    failuresTotal := 5
    serviceName := "payment" }

/-- A breaker probing HalfOpen. -/
def cbHalfOpenW : CircuitBreaker :=
  { state := .StateHalfOpen
    failureTimestamps := [0, 0, 0, 0, 0]
    failureThreshold := 5
    failureWindow := 10
    successThreshold := 1
    timeout := 30
    lastFailureTime := 0
    failuresTotal := 5
    serviceName := "payment" }

/-- A fresh closed breaker with threshold five, window ten, timeout
thirty. -/
def cbFreshW : CircuitBreaker :=
  { state := .StateClosed
    failureTimestamps := []
    failureThreshold := 5
    failureWindow := 10
    successThreshold := 1
    timeout := 30
    lastFailureTime := 0
    failuresTotal := 0
    serviceName := "payment" }

/-- A closed breaker one failure short of the threshold, all four recorded
failures recent. -/
def cbFourFailures : CircuitBreaker :=
  { state := .StateClosed
    failureTimestamps := [1, 2, 3, 4]
    failureThreshold := 5
    failureWindow := 10
    successThreshold := 1
    timeout := 30
    lastFailureTime := 4
    failuresTotal := 4
    serviceName := "payment" }

/-- A saturated bulkhead of capacity ten. -/
def bhFullW : Bulkhead :=
  { capacity := 10
    inFlight := 10
    rejected := 0
    poolName := "payment" }

/-- A bulkhead of capacity ten with a free slot. -/
def bhFreeW : Bulkhead :=
  { capacity := 10
    inFlight := 3
    rejected := 0
    poolName := "payment" }

/-- Filtering twice with the same predicate filters once. -/
lemma filter_idem {α : Type} (p : α → Bool) (l : List α) :
    (l.filter p).filter p = l.filter p :=
  List.filter_eq_self.mpr (fun _ ha => (List.mem_filter.mp ha).2)

/-- Closed form of one `recordFailure` step: the kept history is the
in-window part of the old history plus the new failure, `lastFailureTime`
and the counter advance, and the state switch tests the kept count. -/
lemma recordFailure_eq (cb : CircuitBreaker) (now : Int) :
    recordFailure cb now =
      { cb with
          failureTimestamps :=
            (cb.failureTimestamps ++ [now]).filter
              (fun ts => now - cb.failureWindow < ts)
          lastFailureTime := now
          failuresTotal := cb.failuresTotal + 1
          state :=
            match cb.state with
            | .StateClosed =>
                if cb.failureThreshold ≤
                    ((cb.failureTimestamps ++ [now]).filter
                      (fun ts => now - cb.failureWindow < ts)).length then
                  .StateOpen
                else
                  .StateClosed
            | .StateHalfOpen => .StateOpen
            | .StateOpen => .StateOpen } := by
  obtain ⟨st, ts, thr, win, sthr, tmo, lft, ftot, name⟩ := cb
  cases st <;>
    simp only [recordFailure, cleanupOldFailures, failureSwitch,
      countFailuresInWindow, setState, filter_idem]
  split
  · rfl
  · rfl

/-- Claim C10: whenever the breaker's `Execute` returns a non-nil error —
the circuit-open rejection or the callable's own error — the accompanying
value is the zero value of `T`; on a nil error the callable's own result
is returned unchanged. -/
theorem execute_zero_value_on_error {T : Type} [Inhabited T]
    (cb : CircuitBreaker) (tAdmit tRecord : Int) (fn : T × Option GoErr) :
    (CircuitBreaker.Execute cb tAdmit tRecord fn).value =
      match (CircuitBreaker.Execute cb tAdmit tRecord fn).err with
      | some _ => default
      | none => fn.1 := by
  rcases h : canAttempt cb tAdmit with ⟨b, cb1⟩
  cases b <;> rcases hf : fn.2 with _ | e <;>
    simp [CircuitBreaker.Execute, h, hf]

/-- Claim C5: from HalfOpen, a single trial success closes the breaker and
clears the failure history, and a single trial failure reopens it and
resets the Open timer (`lastFailureTime` becomes the failure's time); a
single failure suffices to reopen. -/
theorem halfopen_trial_outcomes (cb : CircuitBreaker) (now : Int)
    (hstate : cb.state = .StateHalfOpen) :
    recordSuccess cb = { cb with state := .StateClosed, failureTimestamps := [] }
    ∧ recordFailure cb now =
        { cb with
            state := .StateOpen
            failureTimestamps :=
              (cb.failureTimestamps ++ [now]).filter
                (fun ts => now - cb.failureWindow < ts)
            lastFailureTime := now
            failuresTotal := cb.failuresTotal + 1 } := by
  obtain ⟨st, ts, thr, win, sthr, tmo, lft, ftot, name⟩ := cb
  subst hstate
  exact ⟨rfl, rfl⟩

/-- Witness for C5 at a concrete HalfOpen breaker. -/
theorem halfopen_trial_outcomes_witness :
    recordSuccess cbHalfOpenW
        = { cbHalfOpenW with state := .StateClosed, failureTimestamps := [] }
    ∧ recordFailure cbHalfOpenW 40 =
        { cbHalfOpenW with
            state := .StateOpen
            failureTimestamps :=
              (cbHalfOpenW.failureTimestamps ++ [40]).filter
                (fun ts => 40 - cbHalfOpenW.failureWindow < ts)
            lastFailureTime := 40
            failuresTotal := cbHalfOpenW.failuresTotal + 1 } :=
  halfopen_trial_outcomes cbHalfOpenW 40 rfl

/-- Counterexample for C3: after the Open-timeout admission check
transitions to HalfOpen and admits a first trial, a second admission
check performed before any outcome is recorded is admitted as well —
refuting that exactly one trial call is admitted before the trial's
outcome is recorded. -/
theorem halfopen_admits_second_trial :
    (canAttempt cbOpenW 31).1 = true
    ∧ (canAttempt cbOpenW 31).2.state = .StateHalfOpen
    ∧ (canAttempt (canAttempt cbOpenW 31).2 31).1 = true
    ∧ (canAttempt (canAttempt cbOpenW 31).2 31).2 = (canAttempt cbOpenW 31).2 := by
  decide

/-- Claim C3 (amended): when the breaker is Open and more than
`openTimeout` has elapsed since `lastFailureTime`, the next admission
check transitions to HalfOpen and admits that request as a trial; while
the breaker remains HalfOpen every further admission check also admits,
so the breaker does not bound the number of trials admitted before an
outcome is recorded. -/
theorem open_timeout_halfopen_admission (cb : CircuitBreaker) (now : Int)
    (hstate : cb.state = .StateOpen)
    (helapsed : cb.timeout < now - cb.lastFailureTime) :
    canAttempt cb now = (true, { cb with state := .StateHalfOpen })
    ∧ ∀ (cb2 : CircuitBreaker) (m : Int), cb2.state = .StateHalfOpen →
        canAttempt cb2 m = (true, cb2) := by
  constructor
  · obtain ⟨st, ts, thr, win, sthr, tmo, lft, ftot, name⟩ := cb
    subst hstate
    simp only [canAttempt, if_pos helapsed]
    rfl
  · intro cb2 m h2
    obtain ⟨st, ts, thr, win, sthr, tmo, lft, ftot, name⟩ := cb2
    subst h2
    rfl

/-- Witness for C3 (amended) at a concrete Open breaker, checked 31 time
units after its last failure with a 30-unit timeout. -/
theorem open_timeout_halfopen_admission_witness :
    canAttempt cbOpenW 31 = (true, { cbOpenW with state := .StateHalfOpen })
    ∧ ∀ (cb2 : CircuitBreaker) (m : Int), cb2.state = .StateHalfOpen →
        canAttempt cb2 m = (true, cb2) :=
  open_timeout_halfopen_admission cbOpenW 31 rfl (by decide)

/-- Claim C4: failure timestamps at least `windowDuration` old at the time
a new failure is recorded never influence `recordFailure` — recording with
the aged-out failures present gives exactly the same breaker as recording
without them. -/
theorem aged_failures_never_count (cb : CircuitBreaker)
    (olds recent : List Int) (now : Int)
    (hts : cb.failureTimestamps = olds ++ recent)
    (holds : ∀ t ∈ olds, t ≤ now - cb.failureWindow) :
    recordFailure cb now =
      recordFailure { cb with failureTimestamps := recent } now := by
  obtain ⟨st, ts, thr, win, sthr, tmo, lft, ftot, name⟩ := cb
  simp only at hts holds
  subst hts
  unfold recordFailure cleanupOldFailures
  have holdsnil : olds.filter (fun ts => decide (now - win < ts)) = [] := by
    rw [List.filter_eq_nil_iff]
    intro t ht
    simpa using not_lt.mpr (holds t ht)
  have hfil : ((olds ++ recent) ++ [now]).filter (fun ts => decide (now - win < ts))
      = (recent ++ [now]).filter (fun ts => decide (now - win < ts)) := by
    rw [List.append_assoc, List.filter_append, holdsnil, List.nil_append]
  simp only [hfil]

/-- Witness for C4: the spec's concrete scenario — threshold five, window
ten, four failures at time 0, a fifth failure at time 11.  Recording the
fifth failure behaves exactly as if the four aged-out failures had never
been recorded, and the breaker stays Closed. -/
theorem aged_failures_never_count_witness :
    recordFailure { cbFreshW with failureTimestamps := [0, 0, 0, 0] } 11
      = recordFailure { cbFreshW with failureTimestamps := [] } 11
    ∧ (recordFailure { cbFreshW with failureTimestamps := [0, 0, 0, 0] } 11).state
        = .StateClosed := by
  constructor
  · exact aged_failures_never_count
      { cbFreshW with failureTimestamps := [0, 0, 0, 0] }
      [0, 0, 0, 0] [] 11 rfl (by decide)
  · decide

/-- Claim C6: while the breaker is Closed, recording a success changes
nothing at all (in particular the failure history is not reset), and
recording a failure that leaves the in-window count below the threshold
keeps the breaker Closed while the failure itself is recorded in the
history. -/
theorem closed_state_frame (cb : CircuitBreaker) (now : Int)
    (hstate : cb.state = .StateClosed)
    (hwin : 0 < cb.failureWindow)
    (hcount : ((cb.failureTimestamps ++ [now]).filter
        (fun ts => now - cb.failureWindow < ts)).length < cb.failureThreshold) :
    recordSuccess cb = cb
    ∧ (recordFailure cb now).state = .StateClosed
    ∧ now ∈ (recordFailure cb now).failureTimestamps := by
  obtain ⟨st, ts, thr, win, sthr, tmo, lft, ftot, name⟩ := cb
  simp only at hstate hwin hcount
  subst hstate
  rw [recordFailure_eq]
  refine ⟨rfl, ?_, ?_⟩
  · simp only
    rw [if_neg (Nat.not_le.mpr hcount)]
  · simp only
    refine List.mem_filter.mpr ⟨List.mem_append_right _ (List.mem_singleton.mpr rfl), ?_⟩
    simpa using sub_lt_self now hwin

/-- Witness for C6 at a concrete Closed breaker holding one recent
failure. -/
theorem closed_state_frame_witness :
    recordSuccess cbClosedW = cbClosedW
    ∧ (recordFailure cbClosedW 5).state = .StateClosed
    ∧ (5 : Int) ∈ (recordFailure cbClosedW 5).failureTimestamps :=
  closed_state_frame cbClosedW 5 rfl (by decide) (by decide)

/-- Folding `recordFailure` over failure instants that all lie strictly
inside the trailing window anchored at `tN` keeps every recorded
timestamp (nothing ages out), preserves the configuration, tracks
`lastFailureTime`, and maintains the invariant that the breaker is Open
or still Closed with fewer in-window failures than the threshold. -/
lemma foldl_recordFailure_inv (tN : Int) (l : List Int) :
    ∀ (cb : CircuitBreaker),
      0 < cb.failureWindow →
      (∀ t ∈ cb.failureTimestamps, tN - cb.failureWindow < t ∧ t ≤ tN) →
      (∀ t ∈ l, tN - cb.failureWindow < t ∧ t ≤ tN) →
      (cb.state = .StateOpen
        ∨ (cb.state = .StateClosed
            ∧ cb.failureTimestamps.length < cb.failureThreshold)) →
      (l.foldl recordFailure cb).failureTimestamps = cb.failureTimestamps ++ l
      ∧ (l.foldl recordFailure cb).failureWindow = cb.failureWindow
      ∧ (l.foldl recordFailure cb).failureThreshold = cb.failureThreshold
      ∧ (l.foldl recordFailure cb).timeout = cb.timeout
      ∧ (l.foldl recordFailure cb).lastFailureTime = l.getLastD cb.lastFailureTime
      ∧ ((l.foldl recordFailure cb).state = .StateOpen
          ∨ ((l.foldl recordFailure cb).state = .StateClosed
              ∧ (l.foldl recordFailure cb).failureTimestamps.length
                  < cb.failureThreshold)) := by
  induction l with
  | nil =>
      intro cb _ _ _ hst
      simpa using hst
  | cons t rest ih =>
      intro cb hwin hts hl hst
      have htwin : tN - cb.failureWindow < t ∧ t ≤ tN := hl t (by simp)
      -- the new failure and the whole history survive the cleanup
      have hkeep : (cb.failureTimestamps ++ [t]).filter
          (fun ts => t - cb.failureWindow < ts) = cb.failureTimestamps ++ [t] := by
        refine List.filter_eq_self.mpr ?_
        intro x hx
        rcases List.mem_append.mp hx with hx | hx
        · have := (hts x hx).1
          simp only [decide_eq_true_eq]
          have : tN - cb.failureWindow < x := this
          have ht2 : t ≤ tN := htwin.2
          linarith
        · have : x = t := List.mem_singleton.mp hx
          subst this
          simp only [decide_eq_true_eq]
          linarith [htwin.1, htwin.2, hwin]
      -- one step of recordFailure
      have hstep : recordFailure cb t =
          { cb with
              failureTimestamps := cb.failureTimestamps ++ [t]
              lastFailureTime := t
              failuresTotal := cb.failuresTotal + 1
              state :=
                match cb.state with
                | .StateClosed =>
                    if cb.failureThreshold ≤ (cb.failureTimestamps ++ [t]).length then
                      .StateOpen
                    else
                      .StateClosed
                | .StateHalfOpen => .StateOpen
                | .StateOpen => .StateOpen } := by
        rw [recordFailure_eq, hkeep]
      have hinv : (recordFailure cb t).state = .StateOpen
          ∨ ((recordFailure cb t).state = .StateClosed
              ∧ (recordFailure cb t).failureTimestamps.length
                  < (recordFailure cb t).failureThreshold) := by
        rcases hst with hopen | ⟨hclosed, hlt⟩
        · left
          rw [hstep]
          simp [hopen]
        · by_cases hcmp : cb.failureThreshold ≤ cb.failureTimestamps.length + 1
          · left
            rw [hstep]
            simp [hclosed, hcmp]
          · right
            constructor
            · rw [hstep]
              simp [hclosed, hcmp]
            · rw [hstep]
              simpa using Nat.lt_of_not_le hcmp
      have hmem2 : ∀ x ∈ (recordFailure cb t).failureTimestamps,
          tN - (recordFailure cb t).failureWindow < x
          ∧ x ≤ tN := by
        rw [hstep]
        intro x hx
        rcases List.mem_append.mp hx with hx | hx
        · exact hts x hx
        · have : x = t := List.mem_singleton.mp hx
          subst this
          exact htwin
      have hrest : ∀ x ∈ rest, tN - (recordFailure cb t).failureWindow < x
          ∧ x ≤ tN := by
        rw [hstep]
        intro x hx
        exact hl x (by simp [hx])
      have ihr := ih (recordFailure cb t) (by rw [hstep]; exact hwin) hmem2 hrest hinv
      rw [List.foldl_cons] at *
      obtain ⟨i1, i2, i3, i4, i5, i6⟩ := ihr
      refine ⟨?_, ?_, ?_, ?_, ?_, ?_⟩
      · rw [i1, hstep]
        simp
      · rw [i2, hstep]
      · rw [i3, hstep]
      · rw [i4, hstep]
      · rw [i5, hstep, List.getLastD_cons]
      · rcases i6 with h | ⟨h1, h2⟩
        · exact Or.inl h
        · refine Or.inr ⟨h1, ?_⟩
          have : (recordFailure cb t).failureThreshold = cb.failureThreshold := by
            rw [hstep]
          rw [this] at h2
          exact h2

/-- An Open breaker whose timeout has not yet elapsed rejects the
admission check and is left unchanged. -/
lemma canAttempt_open_not_elapsed (cb : CircuitBreaker) (u : Int)
    (hst : cb.state = .StateOpen)
    (h : ¬ cb.timeout < u - cb.lastFailureTime) :
    canAttempt cb u = (false, cb) := by
  obtain ⟨st, ts, thr, win, sthr, tmo, lft, ftot, name⟩ := cb
  subst hst
  simp [canAttempt, h]

/-- A rejected admission check makes `Execute` return the zero value and
`ErrCircuitOpen` without running the callable; only the failure counter
moves. -/
lemma Execute_rejected {T : Type} [Inhabited T] (cb : CircuitBreaker)
    (tAdmit tRecord : Int) (fn : T × Option GoErr)
    (h : canAttempt cb tAdmit = (false, cb)) :
    CircuitBreaker.Execute cb tAdmit tRecord fn
      = ⟨default, some .errCircuitOpen, false,
          { cb with failuresTotal := cb.failuresTotal + 1 }⟩ := by
  unfold CircuitBreaker.Execute
  rw [h]

/-- Claim C2: starting from a fresh Closed breaker, recording at least
`failureThreshold` failures whose instants all lie inside the trailing
window anchored at the last failure instant `tN` opens the breaker, and
afterwards every `Execute` call made while no more than `openTimeout` has
elapsed since `tN` returns `ErrCircuitOpen` without invoking the
callable, moving nothing but the failure counter — so each subsequent
call (any counter value `m`) is rejected the same way. -/
theorem breaker_opens_and_rejects (cb : CircuitBreaker) (l : List Int) (tN : Int)
    (hwin : 0 < cb.failureWindow)
    (hstate : cb.state = .StateClosed)
    (hempty : cb.failureTimestamps = [])
    (hthr : 1 ≤ cb.failureThreshold)
    (hlen : cb.failureThreshold ≤ (l ++ [tN]).length)
    (hmem : ∀ t ∈ l ++ [tN], tN - cb.failureWindow < t ∧ t ≤ tN) :
    ((l ++ [tN]).foldl recordFailure cb).state = .StateOpen
    ∧ ((l ++ [tN]).foldl recordFailure cb).lastFailureTime = tN
    ∧ ∀ (T : Type) [Inhabited T] (m : Nat) (u tRecord : Int)
        (fn : T × Option GoErr),
        u - tN ≤ cb.timeout →
        CircuitBreaker.Execute
            { (l ++ [tN]).foldl recordFailure cb with failuresTotal := m }
            u tRecord fn
          = ⟨default, some .errCircuitOpen, false,
              { (l ++ [tN]).foldl recordFailure cb with failuresTotal := m + 1 }⟩ := by
  obtain ⟨i1, i2, i3, i4, i5, i6⟩ :=
    foldl_recordFailure_inv tN (l ++ [tN]) cb hwin
      (by rw [hempty]; intro x hx; cases hx) hmem
      (Or.inr ⟨hstate, by rw [hempty]; simpa using hthr⟩)
  have hopen : ((l ++ [tN]).foldl recordFailure cb).state = .StateOpen := by
    rcases i6 with h | ⟨_, hlt⟩
    · exact h
    · rw [i1, hempty, List.nil_append] at hlt
      exact absurd hlen (Nat.not_le.mpr hlt)
  have hlast : ((l ++ [tN]).foldl recordFailure cb).lastFailureTime = tN := by
    rw [i5, List.getLastD_concat]
  refine ⟨hopen, hlast, ?_⟩
  intro T instT m u tRecord fn hu
  have hst2 : ({ (l ++ [tN]).foldl recordFailure cb with failuresTotal := m }
      : CircuitBreaker).state = .StateOpen := hopen
  have hno : ¬ ({ (l ++ [tN]).foldl recordFailure cb with failuresTotal := m }
        : CircuitBreaker).timeout
      < u - ({ (l ++ [tN]).foldl recordFailure cb with failuresTotal := m }
        : CircuitBreaker).lastFailureTime := by
    show ¬ ((l ++ [tN]).foldl recordFailure cb).timeout
        < u - ((l ++ [tN]).foldl recordFailure cb).lastFailureTime
    rw [i4, hlast]
    exact not_lt.mpr hu
  exact Execute_rejected _ u tRecord fn
    (canAttempt_open_not_elapsed _ u hst2 hno)

/-- Witness for C2: the fresh `payment` breaker (threshold five, window
ten, timeout thirty) after failures at instants 0,1,2,3,4 is Open, and an
`Execute` at instant 30 (26 units after the last failure, within the
timeout) is rejected with `ErrCircuitOpen` without running the
callable. -/
theorem breaker_opens_and_rejects_witness :
    (([0, 1, 2, 3] ++ [(4 : Int)]).foldl recordFailure cbFreshW).state
        = .StateOpen
    ∧ CircuitBreaker.Execute
        { ([0, 1, 2, 3] ++ [(4 : Int)]).foldl recordFailure cbFreshW with
            failuresTotal := 7 }
        30 30 (((), none) : Unit × Option GoErr)
      = ⟨default, some .errCircuitOpen, false,
          { ([0, 1, 2, 3] ++ [(4 : Int)]).foldl recordFailure cbFreshW with
              failuresTotal := 8 }⟩ := by
  have h := breaker_opens_and_rejects cbFreshW [0, 1, 2, 3] 4
    (by decide) rfl rfl (by decide) (by decide) (by decide)
  exact ⟨h.1, h.2.2 Unit 7 30 30 ((), none) (by decide)⟩

/-- Any interleaving of admission attempts and completions preserves the
bulkhead's capacity and keeps the in-flight count at or below it. -/
lemma bhStep_fold (evs : List BhEvent) :
    ∀ (b : Bulkhead), b.inFlight ≤ b.capacity →
      (evs.foldl bhStep b).capacity = b.capacity
      ∧ (evs.foldl bhStep b).inFlight ≤ b.capacity := by
  induction evs with
  | nil =>
      intro b h
      exact ⟨rfl, h⟩
  | cons e rest ih =>
      intro b h
      have hstep : (bhStep b e).capacity = b.capacity
          ∧ (bhStep b e).inFlight ≤ b.capacity := by
        cases e
        · unfold bhStep
          by_cases hlt : b.inFlight < b.capacity
          · rw [if_pos hlt]
            exact ⟨rfl, hlt⟩
          · rw [if_neg hlt]
            exact ⟨rfl, h⟩
        · unfold bhStep
          by_cases hpos : 0 < b.inFlight
          · rw [if_pos hpos]
            exact ⟨rfl, le_trans (Nat.sub_le _ _) h⟩
          · rw [if_neg hpos]
            exact ⟨rfl, h⟩
      obtain ⟨hc, hi⟩ := hstep
      rw [List.foldl_cons]
      obtain ⟨c1, c2⟩ := ih (bhStep b e) (by rw [hc]; exact hi)
      exact ⟨by rw [c1, hc], by rw [hc] at c2; exact c2⟩

/-- Claim C7: starting from a fresh bulkhead of capacity `n`, no
interleaving of admission attempts and completions ever pushes the
in-flight count (= the number of callables executing, since an admitted
call holds its slot for its whole execution) above `n`; and an attempt
while the bulkhead is saturated — `TryExecute`, or `Execute` with a live
context — returns `ErrBulkheadFull` without invoking the callable and
without touching the in-flight count. -/
theorem bulkhead_capacity_never_exceeded :
    (∀ (poolName : String) (n : Nat) (evs : List BhEvent),
        (evs.foldl bhStep (NewBulkhead poolName n)).inFlight ≤ n)
    ∧ (∀ (b : Bulkhead) (out : BhOutcome), b.capacity ≤ b.inFlight →
        Bulkhead.TryExecute b out
          = ⟨.ret (some .errBulkheadFull), false,
              { b with rejected := b.rejected + 1 }⟩)
    ∧ (∀ (b : Bulkhead) (pickCtx : Bool) (out : BhOutcome),
        b.capacity ≤ b.inFlight →
        Bulkhead.Execute b false pickCtx out
          = ⟨.ret (some .errBulkheadFull), false,
              { b with rejected := b.rejected + 1 }⟩) := by
  refine ⟨?_, ?_, ?_⟩
  · intro poolName n evs
    exact (bhStep_fold evs (NewBulkhead poolName n) (Nat.zero_le n)).2
  · intro b out h
    unfold Bulkhead.TryExecute
    rw [if_neg (Nat.not_lt.mpr h)]
  · intro b pickCtx out h
    unfold Bulkhead.Execute
    rw [if_neg (Nat.not_lt.mpr h)]
    rfl

/-- Witness for C7: a trace of three arrivals and one completion against a
fresh capacity-2 bulkhead stays within capacity, and attempts against a
saturated bulkhead are rejected. -/
theorem bulkhead_capacity_never_exceeded_witness :
    (([.arrive, .arrive, .arrive, .finish] : List BhEvent).foldl bhStep
        (NewBulkhead "payment" 2)).inFlight ≤ 2
    ∧ Bulkhead.TryExecute bhFullW (.ret none)
        = ⟨.ret (some .errBulkheadFull), false,
            { bhFullW with rejected := bhFullW.rejected + 1 }⟩
    ∧ Bulkhead.Execute bhFullW false true (.ret none)
        = ⟨.ret (some .errBulkheadFull), false,
            { bhFullW with rejected := bhFullW.rejected + 1 }⟩ :=
  ⟨bulkhead_capacity_never_exceeded.1 "payment" 2 [.arrive, .arrive, .arrive, .finish],
   bulkhead_capacity_never_exceeded.2.1 bhFullW (.ret none) (by decide),
   bulkhead_capacity_never_exceeded.2.2 bhFullW true (.ret none) (by decide)⟩

/-- Claim C8: every bulkhead run leaves the in-flight count exactly where
it started — a rejected attempt never touches it, and an admitted call
acquires exactly one slot, holds it while the callable runs (the state
during the call is `b.acquired`, one above the entry count), and the
deferred release brings it back on every exit path, normal return with or
without error and abnormal termination alike. -/
theorem bulkhead_slot_release_balanced :
    (∀ (b : Bulkhead) (out : BhOutcome),
        (Bulkhead.TryExecute b out).final.inFlight = b.inFlight)
    ∧ (∀ (b : Bulkhead) (ctxDone pickCtx : Bool) (out : BhOutcome),
        (Bulkhead.Execute b ctxDone pickCtx out).final.inFlight = b.inFlight)
    ∧ (∀ (b : Bulkhead) (out : BhOutcome), b.inFlight < b.capacity →
        Bulkhead.TryExecute b out = ⟨out, true, b.acquired.released⟩
        ∧ b.acquired.inFlight = b.inFlight + 1
        ∧ b.acquired.released.inFlight = b.inFlight) := by
  refine ⟨?_, ?_, ?_⟩
  · intro b out
    unfold Bulkhead.TryExecute
    split
    · simp [Bulkhead.acquired, Bulkhead.released]
    · rfl
  · intro b ctxDone pickCtx out
    unfold Bulkhead.Execute
    split
    · split
      · rfl
      · simp [Bulkhead.acquired, Bulkhead.released]
    · split
      · rfl
      · rfl
  · intro b out h
    refine ⟨?_, rfl, by simp [Bulkhead.acquired, Bulkhead.released]⟩
    unfold Bulkhead.TryExecute
    rw [if_pos h]

/-- Witness for C8: an admitted call that terminates abnormally still
releases its slot, and the helper equalities hold at a concrete
bulkhead. -/
theorem bulkhead_slot_release_balanced_witness :
    (Bulkhead.TryExecute bhFreeW .panicked).final.inFlight = bhFreeW.inFlight
    ∧ (Bulkhead.Execute bhFreeW false false .panicked).final.inFlight
        = bhFreeW.inFlight
    ∧ (Bulkhead.TryExecute bhFreeW .panicked
          = ⟨.panicked, true, bhFreeW.acquired.released⟩
        ∧ bhFreeW.acquired.inFlight = bhFreeW.inFlight + 1
        ∧ bhFreeW.acquired.released.inFlight = bhFreeW.inFlight) :=
  ⟨bulkhead_slot_release_balanced.1 bhFreeW .panicked,
   bulkhead_slot_release_balanced.2.1 bhFreeW false false .panicked,
   bulkhead_slot_release_balanced.2.2 bhFreeW .panicked (by decide)⟩

/-- Counterexample for C9: `Execute` on a bulkhead with a free slot and a
context that is already done may still admit and run the callable —
Go's `select` chooses among the ready cases, and when it picks the
semaphore send the call proceeds and the callable's own result is
returned instead of the context's cancellation error. -/
theorem execute_admits_despite_done_context :
    (Bulkhead.Execute (NewBulkhead "payment" 1) true false (.ret none)).invoked
        = true
    ∧ (Bulkhead.Execute (NewBulkhead "payment" 1) true false (.ret none)).exit
        = .ret none := by
  decide

/-- Claim C9 (amended): when the context is already done, `Execute`
returns the context's cancellation error without admitting whenever no
slot is available — or whenever the select picks the context case even
though a slot is free (when both are ready the choice is
pseudo-random, so admission is also possible); when the context is not
done and no slot is available it returns `ErrBulkheadFull` immediately
without invoking the callable. -/
theorem bulkhead_execute_cancellation (b : Bulkhead) (pickCtx : Bool)
    (out : BhOutcome) :
    (b.capacity ≤ b.inFlight →
        Bulkhead.Execute b true pickCtx out
          = ⟨.ret (some .ctxCanceled), false, b⟩)
    ∧ (b.inFlight < b.capacity →
        Bulkhead.Execute b true true out
          = ⟨.ret (some .ctxCanceled), false, b⟩)
    ∧ (b.capacity ≤ b.inFlight →
        Bulkhead.Execute b false pickCtx out
          = ⟨.ret (some .errBulkheadFull), false,
              { b with rejected := b.rejected + 1 }⟩) := by
  refine ⟨?_, ?_, ?_⟩
  · intro h
    unfold Bulkhead.Execute
    rw [if_neg (Nat.not_lt.mpr h)]
    rfl
  · intro h
    unfold Bulkhead.Execute
    rw [if_pos h]
    rfl
  · intro h
    unfold Bulkhead.Execute
    rw [if_neg (Nat.not_lt.mpr h)]
    rfl

/-- Witness for C9 (amended) at concrete saturated and free bulkheads. -/
theorem bulkhead_execute_cancellation_witness :
    Bulkhead.Execute bhFullW true false (.ret none)
        = ⟨.ret (some .ctxCanceled), false, bhFullW⟩
    ∧ Bulkhead.Execute bhFreeW true true (.ret none)
        = ⟨.ret (some .ctxCanceled), false, bhFreeW⟩
    ∧ Bulkhead.Execute bhFullW false false (.ret none)
        = ⟨.ret (some .errBulkheadFull), false,
            { bhFullW with rejected := bhFullW.rejected + 1 }⟩ :=
  ⟨(bulkhead_execute_cancellation bhFullW false (.ret none)).1 (by decide),
   (bulkhead_execute_cancellation bhFreeW true (.ret none)).2.1 (by decide),
   (bulkhead_execute_cancellation bhFullW false (.ret none)).2.2 (by decide)⟩

/-- Counterexample for C1: with the breaker Closed at four recent
failures (threshold five) and the bulkhead saturated, `ProcessPayment`
returns the bulkhead-full rejection directly — but the rejection is also
recorded as a breaker failure: the failure history grows by the rejection
instant and the breaker trips Open, although the real call was never
attempted. -/
theorem bulkhead_rejection_trips_breaker :
    (PaymentClient.ProcessPayment ⟨cbFourFailures, bhFullW⟩ Unit 5 5
        (none, none)).1.err = some .errBulkheadFull
    ∧ (PaymentClient.ProcessPayment ⟨cbFourFailures, bhFullW⟩ Unit 5 5
        (none, none)).1.cb.state = .StateOpen
    ∧ (PaymentClient.ProcessPayment ⟨cbFourFailures, bhFullW⟩ Unit 5 5
        (none, none)).1.cb.failureTimestamps = [1, 2, 3, 4, 5] := by
  decide

/-- Claim C1 (amended): in `ProcessPayment`, a circuit-open rejection is
returned without touching the bulkhead or the failure history (only the
failure metric counter moves), so it never counts toward tripping the
breaker; a bulkhead-full rejection is returned directly to the caller but
it IS recorded as a breaker failure — exactly like an attempted call — and
therefore counts toward tripping the breaker; an actually attempted
call's outcome is recorded as failure or success according to its
error. -/
theorem processPayment_rejection_accounting (c : PaymentClient) (R : Type)
    (tAdmit tRecord : Int) (call : Option R × Option GoErr) :
    ((canAttempt c.circuitBreaker tAdmit).1 = false →
        PaymentClient.ProcessPayment c R tAdmit tRecord call
          = (⟨none, some .errCircuitOpen, false,
                { (canAttempt c.circuitBreaker tAdmit).2 with
                    failuresTotal :=
                      (canAttempt c.circuitBreaker tAdmit).2.failuresTotal + 1 }⟩,
             c.bulkhead))
    ∧ ((canAttempt c.circuitBreaker tAdmit).1 = true →
        c.bulkhead.capacity ≤ c.bulkhead.inFlight →
        (PaymentClient.ProcessPayment c R tAdmit tRecord call).1.err
            = some .errBulkheadFull
        ∧ (PaymentClient.ProcessPayment c R tAdmit tRecord call).1.cb
            = recordFailure (canAttempt c.circuitBreaker tAdmit).2 tRecord)
    ∧ ((canAttempt c.circuitBreaker tAdmit).1 = true →
        c.bulkhead.inFlight < c.bulkhead.capacity →
        (PaymentClient.ProcessPayment c R tAdmit tRecord call).1.cb
          = match call.2 with
            | some _ => recordFailure (canAttempt c.circuitBreaker tAdmit).2 tRecord
            | none => recordSuccess (canAttempt c.circuitBreaker tAdmit).2) := by
  rcases hca : canAttempt c.circuitBreaker tAdmit with ⟨ok, cb1⟩
  refine ⟨?_, ?_, ?_⟩
  · intro hok
    simp only at hok
    subst hok
    simp only [PaymentClient.ProcessPayment, CircuitBreaker.Execute, hca]
    rfl
  · intro hok hfull
    simp only at hok
    subst hok
    simp only [PaymentClient.ProcessPayment, Bulkhead.TryExecute,
      CircuitBreaker.Execute, hca, if_neg (Nat.not_lt.mpr hfull)]
    exact ⟨trivial, trivial⟩
  · intro hok hfree
    simp only at hok
    subst hok
    rcases hc2 : call.2 with _ | e
    · simp only [PaymentClient.ProcessPayment, Bulkhead.TryExecute,
        CircuitBreaker.Execute, hca, hc2, if_pos hfree]
    · simp only [PaymentClient.ProcessPayment, Bulkhead.TryExecute,
        CircuitBreaker.Execute, hca, hc2, if_pos hfree]

/-- Witness for C1 (amended): a circuit-open rejection at an Open breaker
records nothing, and a bulkhead-full rejection at a Closed breaker is
recorded as a breaker failure. -/
theorem processPayment_rejection_accounting_witness :
    PaymentClient.ProcessPayment ⟨cbOpenW, bhFullW⟩ Unit 5 5
        ((none, none) : Option Unit × Option GoErr)
      = (⟨none, some .errCircuitOpen, false,
            { (canAttempt cbOpenW 5).2 with
                failuresTotal := (canAttempt cbOpenW 5).2.failuresTotal + 1 }⟩,
         bhFullW)
    ∧ (PaymentClient.ProcessPayment ⟨cbFourFailures, bhFullW⟩ Unit 5 5
          ((none, none) : Option Unit × Option GoErr)).1.cb
        = recordFailure (canAttempt cbFourFailures 5).2 5
    ∧ (PaymentClient.ProcessPayment ⟨cbFourFailures, bhFreeW⟩ Unit 5 5
          ((none, none) : Option Unit × Option GoErr)).1.cb
        = recordSuccess (canAttempt cbFourFailures 5).2 :=
  ⟨(processPayment_rejection_accounting ⟨cbOpenW, bhFullW⟩ Unit 5 5
      (none, none)).1 (by decide),
   ((processPayment_rejection_accounting ⟨cbFourFailures, bhFullW⟩ Unit 5 5
      (none, none)).2.1 (by decide) (by decide)).2,
   (processPayment_rejection_accounting ⟨cbFourFailures, bhFreeW⟩ Unit 5 5
      (none, none)).2.2 (by decide) (by decide)⟩

end GoDown
